import Mathlib

/-!
Verification of the bounded producer/consumer queue and the worker pool of
the c-cpp-concurrency repository.

The development shallowly embeds the C++ components the specification
covers:

* `ThreadSafeQueue` — `src/std_threads/06_task_queue.cpp`.  The mutable
  object state (the `std::queue<T> q`, the bound `max_size`, the atomic
  `finished` flag) becomes a structure, and each member function becomes a
  state-passing function.  A blocking operation is modelled as a partial
  step: `none` means the condition-variable wait predicate is false, so the
  calling thread stays blocked and the call does not complete; `some`
  carries the caller-visible return value together with the state after the
  call.  This is the standard sequential (linearized) semantics of a
  monitor-style object: each completed call is one atomic step, which is
  exactly how the mutex-protected critical sections of the source behave.

* `SimpleThreadPool` — `src/std_threads/14_simple_threadpool.cpp`.  The
  pool state is the `stop` flag, the pending `tasks` queue and the shared
  states of the `std::future`s handed out by `enqueue_task` (one cell per
  `std::packaged_task`).  A pending task is modelled by the outcome its
  body produces when run (`Outcome V E`, a value or a thrown exception) plus the
  index of the future cell its `packaged_task` writes, if any.  One worker
  loop iteration becomes one step of `workerIter`.

* `ResultChannel` — the one-shot value/error channel of the specification.
  The repository realises it with `std::promise`/`std::future`
  (`src/std_threads/07_promise_and_future.cpp`,
  `src/std_threads/12_promise_future_exception.cpp`), whose internals are
  standard-library code, so the channel itself is modelled from the
  specification's words.
-/

namespace CppConc

/-! ## Definitions: ThreadSafeQueue (src/std_threads/06_task_queue.cpp) -/

/-- State of a `ThreadSafeQueue<T>`: the protected `std::queue<T> q`
(front of the list = front of the queue), the capacity bound `max_size`
and the `finished` flag set by `set_finished`. -/
structure ThreadSafeQueue (T : Type) where
  q : List T
  max_size : Nat
  finished : Bool
deriving DecidableEq, Repr

/-- Constructor `ThreadSafeQueue(size_t maxSize = 1000)`: no check on
`maxSize` is performed, any value (including `0`) is accepted and the
buffer starts empty with `finished = false`. -/
def mkQueue (T : Type) (maxSize : Nat) : ThreadSafeQueue T :=
  { q := [], max_size := maxSize, finished := false }

/-- One completed call of `void push(T item)`.  The call completes when the
wait predicate `q.size() < max_size || finished` holds; otherwise the
caller remains blocked (`none`).  On completion, if `finished` is set the
function returns without enqueuing; otherwise the item is appended at the
tail.  The first component of the result is the caller-visible return
value: the C++ function returns `void`, so it is `Unit` in every case —
the caller receives no indication distinguishing a dropped push from a
successful one. -/
def ThreadSafeQueue.push {T : Type} (s : ThreadSafeQueue T) (item : T) :
    Option (Unit × ThreadSafeQueue T) :=
  if s.q.length < s.max_size ∨ s.finished then
    if s.finished then some ((), s)
    else some ((), { s with q := s.q ++ [item] })
  else none

/-- One completed call of `std::optional<T> pop()`.  The call completes
when the wait predicate `!q.empty() || finished` holds; otherwise the
caller remains blocked (`none`).  On completion the source first returns
`nullopt` when `q.empty() && finished`, then re-checks `q.empty()` and
returns `nullopt`, and otherwise moves `q.front()` out and pops it. -/
def ThreadSafeQueue.pop {T : Type} (s : ThreadSafeQueue T) :
    Option (Option T × ThreadSafeQueue T) :=
  if (¬ s.q.isEmpty) ∨ s.finished then
    if s.q.isEmpty ∧ s.finished then some (none, s)
    else if s.q.isEmpty then some (none, s)
    else
      match s.q with
      | [] => some (none, s)
      | x :: rest => some (some x, { s with q := rest })
  else none

/-- `void set_finished()`: sets the `finished` flag (and notifies all
waiters, which in this sequential semantics is the fact that a blocked
call re-evaluates its predicate on the new state). -/
def ThreadSafeQueue.set_finished {T : Type} (s : ThreadSafeQueue T) : ThreadSafeQueue T :=
  { s with finished := true }

/-- One completed operation on the queue, by any thread. -/
inductive ThreadSafeQueue.QStep {T : Type} :
    ThreadSafeQueue T → ThreadSafeQueue T → Prop where
  | push (item : T) (u : Unit) (s t : ThreadSafeQueue T) :
      push s item = some (u, t) → QStep s t
  | pop (r : Option T) (s t : ThreadSafeQueue T) :
      pop s = some (r, t) → QStep s t
  | close (s : ThreadSafeQueue T) : QStep s (set_finished s)

/-- Reachability by completed queue operations. -/
inductive ThreadSafeQueue.Reachable {T : Type} :
    ThreadSafeQueue T → ThreadSafeQueue T → Prop where
  | refl (s : ThreadSafeQueue T) : Reachable s s
  | step (s t u : ThreadSafeQueue T) : Reachable s t → QStep t u → Reachable s u

/-- Sequence of push calls, each run to completion. -/
def ThreadSafeQueue.pushAll {T : Type} (s : ThreadSafeQueue T) :
    List T → Option (ThreadSafeQueue T)
  | [] => some s
  | x :: xs =>
      match push s x with
      | none => none
      | some (_, t) => pushAll t xs

/-- Sequence of `k` pop calls, each run to completion, collecting the
returned `std::optional` values. -/
def ThreadSafeQueue.popN {T : Type} (s : ThreadSafeQueue T) :
    Nat → Option (List (Option T) × ThreadSafeQueue T)
  | 0 => some ([], s)
  | k + 1 =>
      match pop s with
      | none => none
      | some (r, t) =>
          match popN t k with
          | none => none
          | some (rs, u) => some (r :: rs, u)

/-! ## Definitions: SimpleThreadPool (src/std_threads/14_simple_threadpool.cpp) -/

/-- Outcome of running a task body: a produced value or a thrown
exception. -/
inductive Outcome (V E : Type) where
  | ok (v : V)
  | err (e : E)
deriving DecidableEq, Repr

/-- Shared state of one `std::future` obtained from a
`std::packaged_task`: not yet written, or holding the stored value or the
stored exception. -/
inductive FutureState (V E : Type) where
  | pending
  | ready (r : Outcome V E)
deriving DecidableEq, Repr

/-- One entry of the pool's `std::queue<std::function<void()>> tasks`.
`body` is the outcome executing the callable's payload produces (a value
or a thrown exception); `chan` is `some i` when the entry is the wrapper
`[task_ptr](){ (*task_ptr)(); }` built by `enqueue_task` around the
`std::packaged_task` whose future shared state has index `i`, and `none`
for a plain `enqueue`d `std::function<void()>` with no future attached. -/
structure PTask (V E : Type) where
  body : Outcome V E
  chan : Option Nat
deriving DecidableEq, Repr

/-- State of a `SimpleThreadPool`: the `stop` flag, the pending task queue
(front of the list = front of the queue) and the future shared states
created so far by `enqueue_task`. -/
structure SimpleThreadPool (V E : Type) where
  stop : Bool
  tasks : List (PTask V E)
  channels : List (FutureState V E)
deriving DecidableEq, Repr

/-- A freshly constructed pool: `stop(false)`, no pending tasks, no
futures handed out yet. -/
def mkPool (V E : Type) : SimpleThreadPool V E :=
  { stop := false, tasks := [], channels := [] }

/-- `void enqueue(std::function<void()> f)`: under the lock, if `stop` is
set the function prints a warning to `cerr` and returns without enqueuing;
otherwise it appends the task.  The caller-visible return value is `Unit`
in both cases — the C++ function returns `void`, so a dropped task is not
reported to the caller. -/
def SimpleThreadPool.enqueue {V E : Type} (p : SimpleThreadPool V E) (f : PTask V E) :
    Unit × SimpleThreadPool V E :=
  if p.stop then ((), p)
  else ((), { p with tasks := p.tasks ++ [f] })

/-- `enqueue_task(F&& f, Args&&... args) -> std::future<...>`: wraps the
callable in a `std::packaged_task`, takes its future (a fresh pending
shared state, returned to the caller as the handle index), and under the
lock either throws `std::runtime_error("Enqueue on stopped ThreadPool")`
when `stop` is set (enqueuing nothing) or appends the wrapper task.  The
first component is the caller-visible result: the thrown exception or the
future handle. -/
def SimpleThreadPool.enqueue_task {V E : Type} (p : SimpleThreadPool V E)
    (body : Outcome V E) : Outcome Nat String × SimpleThreadPool V E :=
  if p.stop then (Outcome.err "Enqueue on stopped ThreadPool", p)
  else
    (Outcome.ok p.channels.length,
      { p with
          tasks := p.tasks ++ [{ body := body, chan := some p.channels.length }],
          channels := p.channels ++ [FutureState.pending] })

/-- Effect of executing one dequeued task (`task()` in the worker, run
outside the lock).  A wrapper built by `enqueue_task` invokes its
`std::packaged_task`, which runs the payload and stores the resulting
value — or the exception the payload threw — into the future's shared
state; the `packaged_task` call itself never propagates the payload's
exception.  A plain `enqueue`d task has no future to update. -/
def SimpleThreadPool.runTask {V E : Type} (channels : List (FutureState V E))
    (t : PTask V E) : List (FutureState V E) :=
  match t.chan with
  | none => channels
  | some i => channels.set i (FutureState.ready t.body)

/-- One iteration of the worker lambda's `while (true)` loop.  `none`: the
wait predicate `stop || !tasks.empty()` is false and the worker stays
blocked on the condition variable.  `some none`: `stop && tasks.empty()`
holds and the worker returns (its thread terminates, becoming joinable
with immediate effect).  `some (some p)`: the worker moved the front task
out of the queue, released the lock, executed the task, and loops. -/
def SimpleThreadPool.workerIter {V E : Type} (p : SimpleThreadPool V E) :
    Option (Option (SimpleThreadPool V E)) :=
  if p.stop ∨ (¬ p.tasks.isEmpty) then
    if p.stop ∧ p.tasks.isEmpty then some none
    else
      match p.tasks with
      | [] => some none
      | t :: rest => some (some { p with tasks := rest, channels := runTask p.channels t })
  else none

/-- Cumulative effect on the future shared states of executing a list of
tasks front-first, exactly as the worker loop does. -/
def SimpleThreadPool.drainList {V E : Type} :
    List (PTask V E) → List (FutureState V E) → List (FutureState V E)
  | [], cs => cs
  | t :: ts, cs => drainList ts (SimpleThreadPool.runTask cs t)

/-- Modelled from the spec: the channel cell state plus the read side's
consumed mark (a handle is read at most once). -/
structure ResultChannel (T E : Type) where
  state : FutureState T E
  consumed : Bool
deriving DecidableEq, Repr

/-- Modelled from the spec: error of a second `set_value`/`set_error`. -/
inductive SetFailure where
  | alreadySet
deriving DecidableEq, Repr

/-- Modelled from the spec: error of a second `get` on the same handle. -/
inductive GetFailure where
  | alreadyConsumed
deriving DecidableEq, Repr

/-- Modelled from the spec: a fresh channel, created at task-submission
time, Pending and unconsumed. -/
def ResultChannel.mkChannel (T E : Type) : ResultChannel T E :=
  { state := FutureState.pending, consumed := false }

/-- Modelled from the spec: `set_value(v)` transitions Pending → Ready(v)
and fails with `AlreadySet` if the channel is already Ready. -/
def ResultChannel.set_value {T E : Type} (c : ResultChannel T E) (v : T) :
    Outcome (ResultChannel T E) SetFailure :=
  match c.state with
  | FutureState.pending => Outcome.ok { c with state := FutureState.ready (Outcome.ok v) }
  | FutureState.ready _ => Outcome.err SetFailure.alreadySet

/-- Modelled from the spec: `set_error(e)` transitions Pending → Ready(e)
and fails with `AlreadySet` if the channel is already Ready. -/
def ResultChannel.set_error {T E : Type} (c : ResultChannel T E) (e : E) :
    Outcome (ResultChannel T E) SetFailure :=
  match c.state with
  | FutureState.pending => Outcome.ok { c with state := FutureState.ready (Outcome.err e) }
  | FutureState.ready _ => Outcome.err SetFailure.alreadySet

/-- Modelled from the spec: `get()` fails with `AlreadyConsumed` on a
handle already read once; otherwise it blocks (`none`) until the channel
is Ready and then returns the stored value-or-error exactly once, marking
the handle consumed. -/
def ResultChannel.get {T E : Type} (c : ResultChannel T E) :
    Option (Outcome (Outcome T E × ResultChannel T E) GetFailure) :=
  if c.consumed then some (Outcome.err GetFailure.alreadyConsumed)
  else
    match c.state with
    | FutureState.pending => none
    | FutureState.ready r => some (Outcome.ok (r, { c with consumed := true }))

/-! ## Theorems: ThreadSafeQueue -/

namespace ThreadSafeQueue

variable {T : Type}

theorem push_not_finished {s t : ThreadSafeQueue T} {x : T} {u : Unit}
    (hf : s.finished = false) (h : push s x = some (u, t)) :
    t = { s with q := s.q ++ [x] } ∧ s.q.length < s.max_size := by
  obtain ⟨b, m, f⟩ := s
  simp only at hf
  subst hf
  unfold push at h
  simp at h
  exact ⟨h.2.symm, h.1⟩

/-- Auxiliary: a successful run of `pushAll` on a non-finished state
appends exactly the pushed items at the tail and leaves the rest of the
state unchanged. -/
theorem pushAll_not_finished {xs : List T} : ∀ {s t : ThreadSafeQueue T},
    s.finished = false → pushAll s xs = some t →
    t = { s with q := s.q ++ xs } := by
  induction xs with
  | nil =>
      intro s t hf h
      simp [pushAll] at h
      simp [← h]
  | cons x xs ih =>
      intro s t hf h
      unfold pushAll at h
      cases hp : push s x with
      | none => rw [hp] at h; cases h
      | some p =>
          rw [hp] at h
          obtain ⟨u, s1⟩ := p
          obtain ⟨hs1, _⟩ := push_not_finished hf hp
          subst hs1
          have := ih (s := { s with q := s.q ++ [x] }) (t := t) hf h
          simp [this]

/-- Auxiliary: popping exactly `length of the buffer` times returns the
whole buffer front-first and empties it, whatever the `finished` flag. -/
theorem popN_drain : ∀ (b : List T) (s : ThreadSafeQueue T), s.q = b →
    popN s b.length = some (b.map some, { s with q := [] }) := by
  intro b
  induction b with
  | nil =>
      intro s hq
      simp [popN]
      cases s
      simp_all
  | cons x rest ih =>
      intro s hq
      have hpop : pop s = some (some x, { s with q := rest }) := by
        unfold pop
        rw [hq]
        simp
      simp only [List.length_cons, popN, hpop]
      rw [ih { s with q := rest } rfl]
      simp [List.map]

/-- C1.  FIFO order: if `k` push calls for the values `xs` all complete on
a fresh (otherwise-idle) queue, then `k` subsequent pop calls complete and
return exactly `xs`, in push-completion order, leaving the buffer empty. -/
theorem fifo_order (N : Nat) (xs : List Nat) (s : ThreadSafeQueue Nat)
    (h : pushAll (mkQueue Nat N) xs = some s) :
    popN s xs.length = some (xs.map some, { s with q := [] }) := by
  have hs : s = { mkQueue Nat N with q := xs } := by
    have := pushAll_not_finished (s := mkQueue Nat N) (t := s) rfl h
    simpa [mkQueue] using this
  have hq : s.q = xs := by rw [hs]
  have := popN_drain xs s hq
  simpa using this

/-- Witness for C1 at a concrete input: push 1, 2, 3 onto a fresh queue of
capacity 10, then three pops return 1, 2, 3. -/
theorem fifo_order_witness :
    popN ({ q := [1, 2, 3], max_size := 10, finished := false } : ThreadSafeQueue Nat) 3 =
      some ([some 1, some 2, some 3],
        { q := [], max_size := 10, finished := false }) := by
  have h : pushAll (mkQueue Nat 10) [1, 2, 3] =
      some ({ q := [1, 2, 3], max_size := 10, finished := false } : ThreadSafeQueue Nat) := by
    decide
  simpa using fifo_order 10 [1, 2, 3] _ h

/-- Case analysis on a completed push: either the queue was finished and
the state is unchanged (the item is dropped), or it was not finished, there
was room, and the item went to the tail. -/
theorem push_cases {s t : ThreadSafeQueue T} {x : T} {u : Unit}
    (h : push s x = some (u, t)) :
    (s.finished = true ∧ t = s) ∨
    (s.finished = false ∧ s.q.length < s.max_size ∧ t = { s with q := s.q ++ [x] }) := by
  obtain ⟨b, m, f⟩ := s
  cases f with
  | true =>
      left
      refine ⟨rfl, ?_⟩
      simp [push] at h
      exact h.symm
  | false =>
      right
      simp [push] at h
      exact ⟨rfl, h.1, h.2.symm⟩

/-- Case analysis on a completed pop: either the buffer was empty with the
queue finished and `nullopt` is returned on the unchanged state, or the
buffer was nonempty and its front is returned and removed. -/
theorem pop_cases {s t : ThreadSafeQueue T} {r : Option T}
    (h : pop s = some (r, t)) :
    (s.q = [] ∧ s.finished = true ∧ r = none ∧ t = s) ∨
    (∃ x rest, s.q = x :: rest ∧ r = some x ∧ t = { s with q := rest }) := by
  obtain ⟨b, m, f⟩ := s
  cases b with
  | nil =>
      left
      cases f with
      | true =>
          simp [pop] at h
          exact ⟨rfl, rfl, h.1.symm, by simp [h.2.symm]⟩
      | false => simp [pop] at h
  | cons x rest =>
      right
      refine ⟨x, rest, rfl, ?_⟩
      simp [pop] at h
      exact ⟨h.1.symm, h.2.symm⟩

/-- Every state reachable from a fresh queue of capacity `N` keeps
`max_size = N` and holds at most `N` items. -/
theorem reachable_bound {N : Nat} : ∀ {s : ThreadSafeQueue T},
    Reachable (mkQueue T N) s → s.max_size = N ∧ s.q.length ≤ N := by
  intro s h
  induction h with
  | refl => simp [mkQueue]
  | step t u hr hstep ih =>
      obtain ⟨hm, hl⟩ := ih
      cases hstep with
      | push item uu s2 t2 hp =>
          rcases push_cases hp with ⟨_, ht⟩ | ⟨_, hroom, ht⟩
          · subst ht; exact ⟨hm, hl⟩
          · subst ht
            constructor
            · simpa using hm
            · simp only [List.length_append, List.length_cons, List.length_nil]
              omega
      | pop r s2 t2 hp =>
          rcases pop_cases hp with ⟨_, _, _, ht⟩ | ⟨x, rest, hq, _, ht⟩
          · subst ht; exact ⟨hm, hl⟩
          · subst ht
            constructor
            · simpa using hm
            · simp only
              rw [hq] at hl
              simp at hl
              omega
      | close s2 =>
          exact ⟨hm, hl⟩

/-- Once the queue is finished and drained, it stays finished and drained
under every further completed operation. -/
theorem closed_empty_invariant : ∀ {s t : ThreadSafeQueue T},
    Reachable s t → s.finished = true → s.q = [] →
    t.finished = true ∧ t.q = [] := by
  intro s t h
  induction h with
  | refl => intro hf hq; exact ⟨hf, hq⟩
  | step t u hr hstep ih =>
      intro hf hq
      obtain ⟨hf2, hq2⟩ := ih hf hq
      cases hstep with
      | push item uu s2 t2 hp =>
          rcases push_cases hp with ⟨_, ht⟩ | ⟨hff, _, _⟩
          · subst ht; exact ⟨hf2, hq2⟩
          · rw [hf2] at hff; cases hff
      | pop r s2 t2 hp =>
          rcases pop_cases hp with ⟨_, _, _, ht⟩ | ⟨x, rest, hqq, _, _⟩
          · subst ht; exact ⟨hf2, hq2⟩
          · rw [hq2] at hqq; cases hqq
      | close s2 =>
          exact ⟨rfl, hq2⟩

/-- Pop on a finished, drained queue completes at once and returns the
end-of-stream sentinel on the unchanged state. -/
theorem pop_closed_empty {s : ThreadSafeQueue T}
    (hf : s.finished = true) (hq : s.q = []) :
    pop s = some (none, s) := by
  obtain ⟨b, m, f⟩ := s
  simp only at hf hq
  subst hf; subst hq
  simp [pop]

/-- C9.  The end-of-stream sentinel is reliable: a completed pop on a
queue whose `finished` flag is not set always returns an item, so `none`
is returned only once the queue is closed. -/
theorem pop_none_only_when_closed (s t : ThreadSafeQueue Nat) (r : Option Nat)
    (h : pop s = some (r, t)) (hf : s.finished = false) :
    ∃ x, r = some x := by
  rcases pop_cases h with ⟨_, hfin, _, _⟩ | ⟨x, rest, _, hr, _⟩
  · rw [hf] at hfin; cases hfin
  · exact ⟨x, hr⟩

/-- Witness for C9: popping the open queue holding `[3]` returns item 3. -/
theorem pop_none_only_when_closed_witness :
    pop ({ q := [3], max_size := 10, finished := false } : ThreadSafeQueue Nat) =
      some (some 3, { q := [], max_size := 10, finished := false }) ∧
    ∃ x, (some 3 : Option Nat) = some x := by
  refine ⟨by decide, ?_⟩
  exact pop_none_only_when_closed
    { q := [3], max_size := 10, finished := false }
    { q := [], max_size := 10, finished := false } (some 3) (by decide) rfl

/-- C10.  A queue constructed with capacity `0` is accepted (`mkQueue` has
no `N >= 1` precondition) and its buffer is empty in every reachable
state; moreover, while the queue is not closed, no push can complete. -/
theorem zero_capacity_never_holds_items (s : ThreadSafeQueue Nat)
    (h : Reachable (mkQueue Nat 0) s) :
    s.q = [] ∧ (s.finished = false → ∀ x : Nat, push s x = none) := by
  obtain ⟨hm, hl⟩ := reachable_bound h
  constructor
  · exact List.length_eq_zero.mp (Nat.le_zero.mp hl)
  · intro hf x
    unfold push
    rw [hm, hf]
    simp

/-- Witness for C10, taken at the freshly constructed zero-capacity
queue. -/
theorem zero_capacity_never_holds_items_witness :
    (mkQueue Nat 0).q = [] ∧ push (mkQueue Nat 0) 5 = none := by
  have h := zero_capacity_never_holds_items (mkQueue Nat 0) (Reachable.refl _)
  exact ⟨h.1, h.2 rfl 5⟩

/-- C6.  Drain-to-stop: on a closed queue, repeated pops return exactly
the items pending at close time, front-first, and once the buffer is
drained every pop on every further reachable state returns the `none`
sentinel — no item is ever returned after the first `none`. -/
theorem drain_to_stop (s s2 : ThreadSafeQueue Nat)
    (hf : s.finished = true) (hr : Reachable { s with q := [] } s2) :
    popN s s.q.length = some (s.q.map some, { s with q := [] }) ∧
    pop s2 = some (none, s2) := by
  constructor
  · exact popN_drain s.q s rfl
  · have h := closed_empty_invariant hr (by simp [hf]) (by simp)
    exact pop_closed_empty h.1 h.2

/-- Witness for C6: the closed queue holding `[5, 6]` yields 5, 6 and then
the sentinel forever. -/
theorem drain_to_stop_witness :
    popN ({ q := [5, 6], max_size := 10, finished := true } : ThreadSafeQueue Nat) 2 =
      some ([some 5, some 6], { q := [], max_size := 10, finished := true }) ∧
    pop ({ q := [], max_size := 10, finished := true } : ThreadSafeQueue Nat) =
      some (none, { q := [], max_size := 10, finished := true }) :=
  drain_to_stop
    { q := [5, 6], max_size := 10, finished := true }
    { q := [], max_size := 10, finished := true }
    rfl (Reachable.refl _)

/-- C4 counterexample.  A push on a closed queue does not return any
`Closed` failure: the C++ `push` returns `void`, so the completed call on
the closed queue yields exactly the same caller-visible result — the unit
value — as a successful push on an open queue.  The item is silently
dropped with no signal to the caller. -/
theorem push_closed_counterexample :
    push ({ q := [], max_size := 10, finished := true } : ThreadSafeQueue Nat) 1 =
      some ((), { q := [], max_size := 10, finished := true }) ∧
    (push ({ q := [], max_size := 10, finished := true } : ThreadSafeQueue Nat) 1).map
        Prod.fst =
      (push ({ q := [], max_size := 10, finished := false } : ThreadSafeQueue Nat) 1).map
        Prod.fst := by
  decide

/-- C4 amended.  A push on a closed queue (including one that closed while
the push was waiting, since the wait predicate is re-evaluated on the new
state) completes without enqueuing and leaves the buffer unchanged, but
returns only `void` — no `Closed` failure is reported to the caller; a
push on an open, non-full queue appends the item at the tail and
succeeds. -/
theorem push_closed_amended (s s2 : ThreadSafeQueue Nat) (x y : Nat)
    (hf : s.finished = true) (hf2 : s2.finished = false)
    (hroom : s2.q.length < s2.max_size) :
    push s x = some ((), s) ∧
    push s2 y = some ((), { s2 with q := s2.q ++ [y] }) := by
  constructor
  · unfold push
    rw [hf]
    simp
  · unfold push
    rw [hf2]
    simp [hroom]

/-- Witness for the amended C4 at concrete closed and open queues. -/
theorem push_closed_amended_witness :
    push ({ q := [], max_size := 10, finished := true } : ThreadSafeQueue Nat) 1 =
      some ((), { q := [], max_size := 10, finished := true }) ∧
    push ({ q := [], max_size := 10, finished := false } : ThreadSafeQueue Nat) 2 =
      some ((), { q := [2], max_size := 10, finished := false }) :=
  push_closed_amended
    { q := [], max_size := 10, finished := true }
    { q := [], max_size := 10, finished := false }
    1 2 rfl rfl (by decide)

end ThreadSafeQueue

/-- C5 counterexample.  On a stopped pool, `enqueue` does not fail with
any `PoolStopped` error: it returns normally (printing only a warning to
`cerr`), with exactly the same caller-visible `void` result as an
`enqueue` on a running pool, and silently drops the task. -/
theorem submit_stopped_counterexample :
    SimpleThreadPool.enqueue
        ({ stop := true, tasks := [], channels := [] } : SimpleThreadPool Nat Nat)
        { body := Outcome.ok 0, chan := none } =
      ((), { stop := true, tasks := [], channels := [] }) ∧
    (SimpleThreadPool.enqueue
        ({ stop := true, tasks := [], channels := [] } : SimpleThreadPool Nat Nat)
        { body := Outcome.ok 0, chan := none }).1 =
      (SimpleThreadPool.enqueue (mkPool Nat Nat)
        { body := Outcome.ok 0, chan := none }).1 := by
  decide

/-- C5 amended.  On a stopped pool, `enqueue` silently drops the task and
returns normally (no error reaches the caller), while `enqueue_task` does
fail — it throws `runtime_error("Enqueue on stopped ThreadPool")` — and
enqueues nothing; on a running pool, `enqueue` appends the task and
`enqueue_task` appends the wrapped task, allocates a fresh pending future
and immediately returns its handle. -/
theorem submit_states_amended (p p2 : SimpleThreadPool Nat Nat)
    (f g : PTask Nat Nat) (b c : Outcome Nat Nat)
    (hstop : p.stop = true) (hrun : p2.stop = false) :
    SimpleThreadPool.enqueue p f = ((), p) ∧
    SimpleThreadPool.enqueue_task p b =
      (Outcome.err "Enqueue on stopped ThreadPool", p) ∧
    SimpleThreadPool.enqueue p2 g = ((), { p2 with tasks := p2.tasks ++ [g] }) ∧
    SimpleThreadPool.enqueue_task p2 c =
      (Outcome.ok p2.channels.length,
        { p2 with
            tasks := p2.tasks ++ [{ body := c, chan := some p2.channels.length }],
            channels := p2.channels ++ [FutureState.pending] }) := by
  refine ⟨?_, ?_, ?_, ?_⟩
  · unfold SimpleThreadPool.enqueue
    rw [hstop]
    simp
  · unfold SimpleThreadPool.enqueue_task
    rw [hstop]
    simp
  · unfold SimpleThreadPool.enqueue
    rw [hrun]
    simp
  · unfold SimpleThreadPool.enqueue_task
    rw [hrun]
    simp

/-- Witness for the amended C5 at a concrete stopped pool and the fresh
running pool. -/
theorem submit_states_amended_witness :
    SimpleThreadPool.enqueue
        ({ stop := true, tasks := [], channels := [] } : SimpleThreadPool Nat Nat)
        { body := Outcome.ok 4, chan := none } =
      ((), { stop := true, tasks := [], channels := [] }) ∧
    SimpleThreadPool.enqueue_task
        ({ stop := true, tasks := [], channels := [] } : SimpleThreadPool Nat Nat)
        (Outcome.ok 5) =
      (Outcome.err "Enqueue on stopped ThreadPool",
        { stop := true, tasks := [], channels := [] }) ∧
    SimpleThreadPool.enqueue (mkPool Nat Nat) { body := Outcome.ok 4, chan := none } =
      ((), { stop := false, tasks := [{ body := Outcome.ok 4, chan := none }],
             channels := [] }) ∧
    SimpleThreadPool.enqueue_task (mkPool Nat Nat) (Outcome.ok 5) =
      (Outcome.ok 0,
        { stop := false, tasks := [{ body := Outcome.ok 5, chan := some 0 }],
          channels := [FutureState.pending] }) :=
  submit_states_amended
    { stop := true, tasks := [], channels := [] } (mkPool Nat Nat)
    { body := Outcome.ok 4, chan := none } { body := Outcome.ok 4, chan := none }
    (Outcome.ok 5) (Outcome.ok 5) rfl rfl

/-- C3.  Worker survival and task isolation: submit a task whose body
throws `e` through `enqueue_task`, then a task whose body returns `v`.
The first worker iteration executes the failing task: the
`std::packaged_task` stores the exception into the first future's shared
state instead of letting it escape, and the iteration ends with the worker
looping (not exiting).  The next iteration then executes the second task,
which succeeds and stores its value into its own future; both tasks were
executed and the worker is still alive at a blocking wait for more work. -/
theorem task_isolation (e v : Nat) :
    SimpleThreadPool.workerIter
        ((SimpleThreadPool.enqueue_task
            ((SimpleThreadPool.enqueue_task (mkPool Nat Nat) (Outcome.err e)).2)
            (Outcome.ok v)).2) =
      some (some
        { stop := false,
          tasks := [{ body := Outcome.ok v, chan := some 1 }],
          channels := [FutureState.ready (Outcome.err e), FutureState.pending] }) ∧
    SimpleThreadPool.workerIter
        ({ stop := false,
           tasks := [{ body := Outcome.ok v, chan := some 1 }],
           channels := [FutureState.ready (Outcome.err e), FutureState.pending] } :
          SimpleThreadPool Nat Nat) =
      some (some
        { stop := false, tasks := [],
          channels := [FutureState.ready (Outcome.err e),
            FutureState.ready (Outcome.ok v)] }) ∧
    SimpleThreadPool.workerIter
        ({ stop := false, tasks := [],
           channels := [FutureState.ready (Outcome.err e),
             FutureState.ready (Outcome.ok v)] } : SimpleThreadPool Nat Nat) =
      none :=
  ⟨rfl, rfl, rfl⟩

/-- C7.  One-shot channel (modelled from the spec, section 4.2): on a
fresh Pending channel the first `set_value`/`set_error` succeeds and
stores its outcome; a second `set_value` or `set_error` on the now-Ready
channel fails with `AlreadySet`; `get` on an unread Ready handle returns
exactly the stored outcome and marks the handle consumed; a second `get`
fails with `AlreadyConsumed`; and `get` on a still-Pending channel blocks
rather than returning. -/
theorem one_shot_channel (v w e : Nat) :
    ResultChannel.set_value (ResultChannel.mkChannel Nat Nat) v =
      Outcome.ok { state := FutureState.ready (Outcome.ok v), consumed := false } ∧
    ResultChannel.set_value
        ({ state := FutureState.ready (Outcome.ok v), consumed := false } :
          ResultChannel Nat Nat) w =
      Outcome.err SetFailure.alreadySet ∧
    ResultChannel.set_error
        ({ state := FutureState.ready (Outcome.ok v), consumed := false } :
          ResultChannel Nat Nat) e =
      Outcome.err SetFailure.alreadySet ∧
    ResultChannel.get
        ({ state := FutureState.ready (Outcome.ok v), consumed := false } :
          ResultChannel Nat Nat) =
      some (Outcome.ok (Outcome.ok v,
        { state := FutureState.ready (Outcome.ok v), consumed := true })) ∧
    ResultChannel.get
        ({ state := FutureState.ready (Outcome.ok v), consumed := true } :
          ResultChannel Nat Nat) =
      some (Outcome.err GetFailure.alreadyConsumed) ∧
    ResultChannel.set_error (ResultChannel.mkChannel Nat Nat) e =
      Outcome.ok { state := FutureState.ready (Outcome.err e), consumed := false } ∧
    ResultChannel.get
        ({ state := FutureState.ready (Outcome.err e), consumed := false } :
          ResultChannel Nat Nat) =
      some (Outcome.ok (Outcome.err e,
        { state := FutureState.ready (Outcome.err e), consumed := true })) ∧
    ResultChannel.get (ResultChannel.mkChannel Nat Nat) = none :=
  ⟨rfl, rfl, rfl, rfl, rfl, rfl, rfl, rfl⟩

namespace SimpleThreadPool

variable {V E : Type}

theorem runTask_length (cs : List (FutureState V E)) (t : PTask V E) :
    (runTask cs t).length = cs.length := by
  cases h : t.chan <;> simp [runTask, h]

theorem drainList_length : ∀ (ts : List (PTask V E)) (cs : List (FutureState V E)),
    (drainList ts cs).length = cs.length := by
  intro ts
  induction ts with
  | nil => intro cs; rfl
  | cons t ts ih =>
      intro cs
      rw [drainList, ih, runTask_length]

end SimpleThreadPool

end CppConc
